import Mathlib

/-
Verification development for the data-examiner application.

The JavaScript sources are shallowly embedded as executable Lean
definitions.  JS strings are modelled as Lean strings with character-list
operations mirroring the JS string methods used by the code; JS numbers
are modelled as rationals (the code only ever produces finite values on
the paths treated here); JS scalar cell values are a tagged union
(`Value`); JS objects used as records and the JS `Map` used as the
conversation store are association lists in insertion order, which is
exactly the key order JS guarantees.  The host date parser
(`Date.parse` / `new Date`) is not code of the repository, so it enters
the embedding as an explicit function parameter `dp`.
-/

namespace DataExaminer

/-- Models the JS string `trim` operation (whitespace stripped from both
ends) on a character list. -/
def trimChars (l : List Char) : List Char :=
  ((l.dropWhile Char.isWhitespace).reverse.dropWhile Char.isWhitespace).reverse

/-- Models JS `String.prototype.trim`. -/
def jsTrim (s : String) : String :=
  String.mk (trimChars s.data)

/-- Models JS `String.prototype.split` with a single-character separator:
always returns at least one piece, empty pieces included. -/
def splitOnCharList (c : Char) : List Char → List (List Char)
  | [] => [[]]
  | x :: xs =>
    match splitOnCharList c xs with
    | [] => [[x]]
    | h :: t => if x = c then [] :: h :: t else (x :: h) :: t

/-- JS `s.split(c)` for a one-character separator `c`. -/
def jsSplit (s : String) (c : Char) : List String :=
  (splitOnCharList c s.data).map String.mk

/-- Numeric value of a digit list, most significant first. -/
def digitsToNat (l : List Char) : Nat :=
  l.foldl (fun n c => 10 * n + (c.toNat - 48)) 0

/-- Valid exponent digits after the `e` marker: optional sign, then one or
more digits, consuming the whole remainder. -/
def expDigitsOk (l : List Char) : Bool :=
  let l1 := match l with
    | '+' :: r => r
    | '-' :: r => r
    | _ => l
  !l1.isEmpty && l1.all Char.isDigit

/-- Remainder of a complete numeric literal after the mantissa: either
nothing, or an exponent part. -/
def expTail : List Char → Bool
  | [] => true
  | 'e' :: r => expDigitsOk r
  | 'E' :: r => expDigitsOk r
  | _ => false

/-- Complete decimal literal after an optional sign: digits with an
optional fraction, at least one digit overall, then an optional
exponent, consuming the whole list. -/
def numLitCore (l : List Char) : Bool :=
  let intPart := l.takeWhile Char.isDigit
  let r1 := l.dropWhile Char.isDigit
  match r1 with
  | '.' :: rest =>
    let frac := rest.takeWhile Char.isDigit
    let r2 := rest.dropWhile Char.isDigit
    (!intPart.isEmpty || !frac.isEmpty) && expTail r2
  | _ => !intPart.isEmpty && expTail r1

/-- Models `isNumeric(value)` from file-analyzer.js line 316, namely
`!isNaN(parseFloat(value)) && isFinite(value)`, for string arguments:
the trimmed string must be a complete finite decimal literal with at
least one digit (so parseFloat succeeds and the Number coercion is
finite).  Hexadecimal and `Infinity` spellings accepted by the Number
coercion are outside the modelled grammar; no claim depends on them. -/
def strIsNumeric (s : String) : Bool :=
  let t := trimChars s.data
  let t1 := match t with
    | '+' :: r => r
    | '-' :: r => r
    | _ => t
  numLitCore t1

/-- Models JS `parseFloat` on a string: skip leading whitespace, read an
optional sign and the longest decimal-literal prefix (optional fraction,
optional well-formed exponent); `none` models the NaN result when no
digit is found. -/
def parseFloatQ (s : String) : Option ℚ :=
  let t := s.data.dropWhile Char.isWhitespace
  let sign : ℚ := match t with
    | '-' :: _ => -1
    | _ => 1
  let t1 : List Char := match t with
    | '-' :: r => r
    | '+' :: r => r
    | _ => t
  let intPart := t1.takeWhile Char.isDigit
  let r1 := t1.dropWhile Char.isDigit
  let fracPart : List Char := match r1 with
    | '.' :: rest => rest.takeWhile Char.isDigit
    | _ => []
  let r2 : List Char := match r1 with
    | '.' :: rest => rest.dropWhile Char.isDigit
    | _ => r1
  if intPart.isEmpty && fracPart.isEmpty then none
  else
    let mant : ℚ := (digitsToNat (intPart ++ fracPart) : ℚ) / ((10 : ℚ) ^ fracPart.length)
    let expVal : Int := match r2 with
      | 'e' :: rest => readExp rest
      | 'E' :: rest => readExp rest
      | _ => 0
    some (sign * mant * (10 : ℚ) ^ expVal)
where
  /-- Exponent value actually consumed by parseFloat: zero when the
  exponent tail is malformed (parseFloat stops before it). -/
  readExp (rest : List Char) : Int :=
    match rest with
    | '+' :: ds => if (ds.takeWhile Char.isDigit).isEmpty then 0 else (digitsToNat (ds.takeWhile Char.isDigit) : Int)
    | '-' :: ds => if (ds.takeWhile Char.isDigit).isEmpty then 0 else -(digitsToNat (ds.takeWhile Char.isDigit) : Int)
    | ds => if (ds.takeWhile Char.isDigit).isEmpty then 0 else (digitsToNat (ds.takeWhile Char.isDigit) : Int)

/-- Tagged union of the JS scalar cell values the application produces:
numbers, strings, booleans, Date objects (epoch milliseconds) and null. -/
inductive Value where
  | VNum (q : ℚ)
  | VStr (s : String)
  | VBool (b : Bool)
  | VDate (t : Int)
  | VNull
deriving DecidableEq

open Value

/-- Models `isNumeric` from file-analyzer.js line 316 on an arbitrary
cell value: true for numbers; for strings, the complete-literal test;
false for booleans, dates and null (their string coercions have no
digit prefix, so parseFloat yields NaN). -/
def jsIsNumeric : Value → Bool
  | VNum _ => true
  | VStr s => strIsNumeric s
  | _ => false

/-- Models JS `parseFloat` applied to a cell value; `none` models NaN. -/
def jsParseFloat : Value → Option ℚ
  | VNum q => some q
  | VStr s => parseFloatQ s
  | _ => none

/-- Models JS `parseFloat(row[col])` where the field may be absent
(`undefined`, which parses to NaN). -/
def jsParseFloatOpt : Option Value → Option ℚ
  | none => none
  | some v => jsParseFloat v

/-- A JS object used as a row record: an association list of field name
to cell value, in key insertion order. -/
abbrev Record := List (String × Value)

/-- First-match lookup in an association list; models JS property read
`r[k]`, with `none` for `undefined`. -/
def lookupRec {α : Type} (k : String) (r : List (String × α)) : Option α :=
  (r.find? (fun p => p.1 == k)).map Prod.snd

/-- Models JS object / Map assignment `o[k] = v`: an existing key keeps
its position and gets the new value, a fresh key is appended. -/
def assocSet {α : Type} (l : List (String × α)) (k : String) (v : α) : List (String × α) :=
  if l.any (fun p => p.1 == k) then
    l.map (fun p => if p.1 == k then (k, v) else p)
  else
    l ++ [(k, v)]

/-- Models JS `Map.prototype.delete`. -/
def assocDelete {α : Type} (l : List (String × α)) (k : String) : List (String × α) :=
  l.filter (fun p => !(p.1 == k))

/-! ## Delimiter detection (file-analyzer.js lines 147-162) -/

/-- Field count produced by splitting a line on a candidate delimiter. -/
def fieldCount (line : String) (d : Char) : Nat :=
  (jsSplit line d).length

/-- The first line of the raw text, from `text.split('\n')` (the source
takes the first ten lines but only ever reads index zero). -/
def firstRawLine (text : String) : String :=
  (jsSplit text '\n').headD ""

/-- The fixed candidate set from file-analyzer.js line 149, in source
order. -/
def delimiterCandidates : List Char := [',', ';', '\t', '|']

/-- Models `detectDelimiter` (file-analyzer.js lines 147-162): fold over
the candidates keeping the first candidate with a strictly larger field
count on the first line; the running best starts at count zero with
comma. -/
def detectDelimiter (text : String) : Char :=
  (delimiterCandidates.foldl
    (fun acc d =>
      if fieldCount (firstRawLine text) d > acc.1 then (fieldCount (firstRawLine text) d, d) else acc)
    ((0 : Nat), ',')).2

/-- Transcription of the specification sentence for delimiter choice:
take the candidate producing the most fields on the first line, ties
resolving to the earlier candidate in the listed order. -/
def specDelimiterChoice (text : String) : Char :=
  let cnt := fun d => fieldCount (firstRawLine text) d
  let m := max (max (max (cnt ',') (cnt ';')) (cnt '\t')) (cnt '|')
  if cnt ',' = m then ','
  else if cnt ';' = m then ';'
  else if cnt '\t' = m then '\t'
  else '|'

/-! ## CSV parsing (file-analyzer.js lines 64-114) -/

/-- Cell conversion from parseCSV (file-analyzer.js lines 90-97): a
numeric string becomes a number, then `true` / `false` (case folded)
become booleans, then a host-parseable date string becomes a Date, and
anything else stays text.  `dp` is the host date parser
`Date.parse(String(v))`, returning `none` for NaN. -/
def convertCell (dp : Value → Option Int) (s : String) : Value :=
  if strIsNumeric s then VNum ((parseFloatQ s).getD 0)
  else
    let lower := String.mk (s.data.map Char.toLower)
    if lower = "true" || lower = "false" then VBool (lower = "true")
    else
      match dp (VStr s) with
      | some t => VDate t
      | none => VStr s

/-- Index-carrying record builder mirroring the
`headers.forEach((header, i) => ...)` loop of parseCSV (file-analyzer.js
lines 87-100): field `i` reads cell `i`, with the empty string for a
missing cell. -/
def buildRecordAux (dp : Value → Option Int) (values : List String) :
    List String → Nat → Record → Record
  | [], _, obj => obj
  | h :: hs, i, obj =>
    buildRecordAux dp values hs (i + 1) (assocSet obj h (convertCell dp (values.getD i "")))

/-- One parsed CSV row object, built from the header list and the cell
list of the row. -/
def buildRecord (dp : Value → Option Int) (headers : List String) (values : List String) : Record :=
  buildRecordAux dp values headers 0 []

/-- The nonblank lines of the input (file-analyzer.js line 70). -/
def csvLines (text : String) : List String :=
  (jsSplit text '\n').filter (fun l => jsTrim l ≠ "")

/-- The trimmed header fields of the first nonblank line, split on the
detected delimiter (file-analyzer.js line 79). -/
def headersOf (text : String) : List String :=
  (jsSplit ((csvLines text).headD "") (detectDelimiter text)).map jsTrim

/-- Models parseCSV (file-analyzer.js lines 64-114) on the file text:
reject blank input, detect the delimiter, take the first nonblank line
as headers and build one record per remaining nonblank line. -/
def parseCSVModel (dp : Value → Option Int) (text : String) : Except String (List Record) :=
  if (csvLines text).isEmpty then .error "Empty CSV file"
  else
    .ok (((csvLines text).drop 1).filter (fun l => jsTrim l ≠ "") |>.map
      (fun line => buildRecord dp (headersOf text)
        ((jsSplit line (detectDelimiter text)).map jsTrim)))

/-! ## JSON normalization (file-analyzer.js lines 122-145) -/

/-- Shape of a parsed JSON document. -/
inductive JsonVal where
  | arr (xs : List JsonVal)
  | obj (fields : List (String × JsonVal))
  | str (s : String)
  | num (q : ℚ)
  | bool (b : Bool)
  | null

/-- Models parseJSON (file-analyzer.js lines 122-145).  The argument is
the outcome of `JSON.parse`: `none` for a syntax error (the thrown
exception is rejected as a parsing error), otherwise the parsed value.
An array resolves to itself, and any value whose JS typeof
is object is wrapped as a one-record dataset; by the JS typeof rules
that branch also catches null.  Everything else is rejected. -/
def normalizeJSON : Option JsonVal → Except String (List JsonVal)
  | none => .error "JSON parsing error"
  | some v =>
    match v with
    | .arr xs => .ok xs
    | .obj fields => .ok [.obj fields]
    | .null => .ok [.null]
    | _ => .error "JSON must be an array or object"

/-! ## Column analysis (file-analyzer.js lines 164-250) -/

/-- The column list of a dataset: the keys of the first record
(file-analyzer.js lines 174-175, `Object.keys(data[0])`); empty for an
empty dataset (line 165 guard). -/
def columnsOf (data : List Record) : List String :=
  match data with
  | [] => []
  | sample :: _ => sample.map Prod.fst

/-- The present-value filter of file-analyzer.js lines 191-193: keep a
read value unless it is undefined, null or the empty string. -/
def keepPresent : Option Value → Option Value
  | none => none
  | some v => if v = VNull then none else if v = VStr "" then none else some v

/-- The complementary missing test: undefined, null or empty string. -/
def isMissingRead : Option Value → Bool
  | none => true
  | some v => if v = VNull then true else if v = VStr "" then true else false

/-- The present values of a column (file-analyzer.js lines 190-193):
the column read from every record, keeping only values that are not
undefined, not null and not the empty string. -/
def presentValues (data : List Record) (col : String) : List Value :=
  (data.map (fun row => lookupRec col row)).filterMap keepPresent

/-- True exactly for number values (the JS typeof test for numbers). -/
def isNumberVal : Value → Bool
  | VNum _ => true
  | _ => false

/-- True exactly for Date values (JS `v instanceof Date`). -/
def isDateVal : Value → Bool
  | VDate _ => true
  | _ => false

/-- The inferred type of one column (file-analyzer.js lines 199-243):
`unknown` when nothing is present; `numeric` when the first present
value is a number or every present value passes the numeric test;
`date` when the first present value is a Date or every present value is
host-parseable as a date; otherwise `text`. -/
def columnTypeOf (dp : Value → Option Int) (data : List Record) (col : String) : String :=
  match presentValues data col with
  | [] => "unknown"
  | firstValue :: rest =>
    if isNumberVal firstValue || (firstValue :: rest).all jsIsNumeric then "numeric"
    else if isDateVal firstValue || (firstValue :: rest).all (fun v => (dp v).isSome) then "date"
    else "text"

/-- The `columnTypes` mapping of the analysis, built per column in
column order (file-analyzer.js lines 180, 189-243). -/
def columnTypesOf (dp : Value → Option Int) (data : List Record) : List (String × String) :=
  (columnsOf data).map (fun col => (col, columnTypeOf dp data col))

/-! ## Chart configuration (file-analyzer.js lines 252-313) -/

/-- The relevant fields of the chart configuration object produced by
prepareChartConfig: the single dataset holds the parsed values of the
first numeric column. -/
structure ChartConfig where
  type : String
  labels : List String
  datasetLabel : String
  dataValues : List ℚ
  title : String

/-- Models `new Date(v)` on a possibly absent cell value, returning
epoch milliseconds or `none` for an invalid date: a Date keeps its
timestamp, a finite number is a timestamp, a string goes through the
host parser `dp`, booleans and null coerce to 1 / 0, and an absent
field is invalid. -/
def jsNewDate (dp : Value → Option Int) : Option Value → Option Int
  | none => none
  | some (VDate t) => some t
  | some (VNum q) => some ⌊q⌋
  | some (VStr s) => dp (VStr s)
  | some (VBool b) => some (if b then 1 else 0)
  | some VNull => some 0

/-- Models prepareChartConfig (file-analyzer.js lines 252-313).
`isoDay` is the host rendering `d.toISOString().split('T')[0]` of a
valid timestamp.  The chart column is the first numeric column; its
values are the first fifty rows parsed with parseFloat, NaN results
dropped.  Labels come from the first date column when one exists
(first fifty rows, invalid dates rendered as `Invalid Date`), otherwise
they are ordinal `Item i` labels matching the value count. -/
def prepareChartConfigModel (dp : Value → Option Int) (isoDay : Int → String)
    (data : List Record) (columnTypes : List (String × String)) : Option ChartConfig :=
  if data.isEmpty then none
  else
    match (columnTypes.filter (fun p => p.2 == "numeric")).map Prod.fst with
    | [] => none
    | chartColumn :: _ =>
      let values := ((data.take 50).map
        (fun row => jsParseFloatOpt (lookupRec chartColumn row))).filterMap id
      if values.isEmpty then none
      else
        let labels := match (columnTypes.filter (fun p => p.2 == "date")).map Prod.fst with
          | [] => (List.range values.length).map (fun i => "Item " ++ toString (i + 1))
          | dateColumn :: _ =>
            (data.take 50).map (fun row =>
              match jsNewDate dp (lookupRec dateColumn row) with
              | none => "Invalid Date"
              | some t => isoDay t)
        some { type := "line", labels := labels, datasetLabel := chartColumn,
               dataValues := values, title := "Analysis of " ++ chartColumn }

/-! ## Chart type selection (chart.js lines 171-214) -/

/-- One entry of `data.datasets` as consumed by the chart manager. -/
structure ChartDataset where
  label : Option String
  data : Option (List ℚ)

/-- The chart data object passed to `updateChart` / `determineChartType`:
`labels` may be absent (JS undefined). -/
structure ChartDataInput where
  labels : Option (List String)
  datasets : List ChartDataset

/-- Models isSequentialData (chart.js lines 195-209): with at least
three points, more than seventy percent of consecutive steps strictly
rising, or more than seventy percent strictly falling. -/
def isSequentialData (ddata : List ℚ) : Bool :=
  if ddata.length < 3 then false
  else
    let pairs := ddata.zip ddata.tail
    let increasing := (pairs.filter (fun p => p.2 > p.1)).length
    let decreasing := (pairs.filter (fun p => p.2 < p.1)).length
    let total : ℚ := (ddata.length : ℚ) - 1
    decide ((increasing : ℚ) / total > 7 / 10) || decide ((decreasing : ℚ) / total > 7 / 10)

/-- Models isPercentageData (chart.js lines 211-214): the value sum is
strictly within five of one hundred. -/
def isPercentageData (ddata : List ℚ) : Bool :=
  decide (|ddata.foldl (· + ·) 0 - 100| < 5)

/-- Models determineChartType (chart.js lines 171-193), preserving the
source decision order: missing first dataset or missing data gives bar;
present labels with at most seven entries give bar; then sequential
data gives line; then percentage-like data gives pie; otherwise bar. -/
def determineChartType (input : ChartDataInput) : String :=
  match input.datasets.head? with
  | none => "bar"
  | some dataset =>
    match dataset.data with
    | none => "bar"
    | some ddata =>
      let rest := if isSequentialData ddata then "line"
        else if isPercentageData ddata then "pie"
        else "bar"
      match input.labels with
      | some ls => if ls.length ≤ 7 then "bar" else rest
      | none => rest

/-! ## Conversation store (server.js lines 115-131, 570-580) -/

/-- One conversation turn: role and content (server.js line 126). -/
abbrev Turn := String × String

/-- The in-memory conversation store, a JS `Map` in insertion order. -/
abbrev Store := List (String × List Turn)

/-- Models getConversationContext (server.js lines 117-119). -/
def getConversationContext (store : Store) (sessionId : String) : List Turn :=
  (lookupRec sessionId store).getD []

/-- Models addToConversation (server.js lines 121-131): create the
session if absent, push the turn, then drop turns from the front while
more than twenty remain. -/
def addToConversation (store : Store) (sessionId : String) (role content : String) : Store :=
  let conversation := (lookupRec sessionId store).getD []
  let conversation := conversation ++ [(role, content)]
  let conversation :=
    if conversation.length > 20 then conversation.drop (conversation.length - 20)
    else conversation
  assocSet store sessionId conversation

/-- Models the periodic cleanup sweep (server.js lines 570-580): with
more than one hundred sessions stored, delete the first half of the
keys in insertion order. -/
def cleanupSweep (store : Store) : Store :=
  if store.length > 100 then
    ((store.map Prod.fst).take ((store.map Prod.fst).length / 2)).foldl
      (fun s k => assocDelete s k) store
  else store

/-! ## AI analysis orchestration (server.js lines 136-326) -/

/-- Result record of analyzeDataWithAI (server.js lines 306-313 and
317-324). -/
structure AIResult where
  success : Bool
  analysis : String
  chartData : Option JsonVal
  chartTitle : String
  chartType : String
  conversationId : String

/-- Outcome of the awaited `fetch` call to the collaborator (server.js
lines 218-242): a rejected promise (network failure or timeout), or a
response with its `ok` flag, status and body; `content` is
`result.choices[0].message.content` when the body parses that far,
`none` when reading it throws. -/
inductive FetchOutcome where
  | rejected (msg : String)
  | response (ok : Bool) (status : Nat) (body : String) (content : Option String)

/-- The fixed analysis text of the catch branch (server.js line 319). -/
def apologyMsg : String :=
  "Sorry, AI analysis failed. Please try again or paste smaller data."

/-- Outcome of the chart-extraction block (server.js lines 253-300):
the analysis text with the fenced block removed, and the extracted
chart data, title and type when present. -/
structure ChartExtract where
  analysis : String
  chartData : Option JsonVal
  chartTitle : Option String
  chartType : Option String

/-- Models analyzeDataWithAI (server.js lines 136-326).  The request
payload assembly (lines 144-233) is summarized by the `outcome`
argument; `clean` models the character clean-up of lines 247-251,
`extract` the fenced-json chart extraction of lines 253-300, and
`freshId` the `uuidv4()` calls.  On the success path the question and
the cleaned content are appended to the conversation store; any
failure (rejected fetch, non-ok status throwing at line 238, or an
unreadable body) reaches the catch branch of lines 314-325, which
returns the fixed apology record with `success: false` and no chart,
leaving the store untouched. -/
def analyzeDataWithAI (clean : String → String) (extract : String → ChartExtract)
    (freshId : String) (store : Store) (sessionId : Option String)
    (question : String) (outcome : FetchOutcome) : AIResult × Store :=
  let sessionIdToUse := match sessionId with
    | some s => if s = "" then freshId else s
    | none => freshId
  let fallback : AIResult × Store :=
    ({ success := false
       analysis := apologyMsg
       chartData := none
       chartTitle := "Error"
       chartType := "auto"
       conversationId := sessionIdToUse }, store)
  match outcome with
  | .rejected _ => fallback
  | .response ok _ _ content =>
    if ok then
      match content with
      | none => fallback
      | some rawContent =>
        let cleanedContent := clean rawContent
        let ex := extract cleanedContent
        let store1 := addToConversation store sessionIdToUse "user" question
        let store2 := addToConversation store1 sessionIdToUse "assistant" cleanedContent
        ({ success := true
           analysis := ex.analysis
           chartData := ex.chartData
           chartTitle := ex.chartTitle.getD "Data Visualization"
           chartType := ex.chartType.getD "auto"
           conversationId := sessionIdToUse }, store2)
    else fallback

/-! ## Concrete instances used by witnesses and counterexamples -/

/-- Twenty-five concrete appends to one fresh session. -/
def msgs25 : List Turn := (List.range 25).map (fun i => ("user", toString i))

/-- A concrete session id. -/
def sid25 : String := "session"

/-- A concrete store of one hundred one distinct sessions. -/
def store101 : Store := (List.range 101).map (fun i => (toString i, []))

/-- A concrete chart input satisfying the pie conditions of the claim:
three labels and values summing to exactly one hundred. -/
def pieCexInput : ChartDataInput :=
  { labels := some ["A", "B", "C"]
    datasets := [{ label := some "S", data := some [50, 30, 20] }] }

/-- The number of values in a column, missing or not (file-analyzer.js
line 196 counts the missing ones as `values.length` minus the present
ones). -/
def missingCountCol (data : List Record) (col : String) : Nat :=
  ((data.map (fun row => lookupRec col row)).filter isMissingRead).length

/-- A host date parser that accepts nothing; it stands in for the JS
parser on inputs with no date strings. -/
def noDate : Value → Option Int := fun _ => none

/-- First record of the concrete two-record dataset for C6. -/
def recA : Record := [("a", VNum 1)]

/-- Remaining records of the concrete dataset for C6: the second record
carries the extra field `b`. -/
def restA : List Record := [[("a", VNum 2), ("b", VNum 3)]]

/-- The concrete dataset for C6. -/
def data6 : List Record := recA :: restA

/-- The concrete all-number column for C4. -/
def data4b : List Record := [[("x", VNum 5)], [("x", VNum 7)]]

/-- The concrete column for C4 with a number first and a non-numeric
string second. -/
def data4 : List Record := [[("x", VNum 5)], [("x", VStr "abc")]]

/-- A concrete two-row dataset with one numeric column and no date
column. -/
def dataW : List Record := [[("x", VNum 1)], [("x", VNum 2)]]

/-- The chart configuration the model produces on `dataW`. -/
def cfgW : ChartConfig :=
  { type := "line", labels := ["Item 1", "Item 2"], datasetLabel := "x",
    dataValues := [1, 2], title := "Analysis of x" }

/-- A host date parser accepting exactly the two date strings of the
counterexample dataset. -/
def dpEx : Value → Option Int := fun v =>
  match v with
  | VStr "2024-01-01" => some 1704067200000
  | VStr "2024-01-02" => some 1704153600000
  | _ => none

/-- A host day renderer for the two timestamps of the counterexample. -/
def isoEx : Int → String := fun t =>
  if t = 1704067200000 then "2024-01-01" else "2024-01-02"

/-- The counterexample dataset: a date column plus a numeric column
whose second value is the empty string. -/
def dataEx : List Record :=
  [[("d", VStr "2024-01-01"), ("x", VNum 5)],
   [("d", VStr "2024-01-02"), ("x", VStr "")]]

/-- The explicit header-to-cell pairing that the record builder produces
on distinct headers: field `j` of the headers paired with cell `i + j`,
missing cells read as the empty string. -/
def rowZip (dp : Value → Option Int) (values : List String) :
    List String → Nat → Record
  | [], _ => []
  | h :: hs, i => (h, convertCell dp (values.getD i "")) :: rowZip dp values hs (i + 1)

/-- A concrete CSV text with three headers, a short row and a long
row. -/
def csvTextW : String := "a,b,c\nx,y\nu,v,w,z"

/-! ## Association list lemmas -/

/-- Setting a key makes it readable, replacement branch. -/
theorem lookup_map_replace {α : Type} (l : List (String × α)) (k : String) (v : α)
    (h : l.any (fun p => p.1 == k) = true) :
    lookupRec k (l.map (fun p => if p.1 == k then (k, v) else p)) = some v := by
  induction l with
  | nil => simp at h
  | cons p t ih =>
    by_cases hp : p.1 == k
    · simp [lookupRec, List.find?, hp]
    · simp only [List.any_cons, hp, Bool.false_or] at h
      simp only [List.map, hp, Bool.false_eq_true, if_false]
      simpa [lookupRec, List.find?, hp] using ih h

/-- Setting a fresh key appends it, and the appended pair is found. -/
theorem lookup_append_new {α : Type} (l : List (String × α)) (k : String) (v : α)
    (h : l.any (fun p => p.1 == k) = false) :
    lookupRec k (l ++ [(k, v)]) = some v := by
  induction l with
  | nil => simp [lookupRec, List.find?]
  | cons p t ih =>
    simp only [List.any_cons, Bool.or_eq_false_iff] at h
    simp only [List.cons_append]
    simpa [lookupRec, List.find?, h.1] using ih h.2

/-- Reading back the key just assigned gives the assigned value. -/
theorem lookupRec_assocSet_self {α : Type} (l : List (String × α)) (k : String) (v : α) :
    lookupRec k (assocSet l k v) = some v := by
  unfold assocSet
  by_cases h : l.any (fun p => p.1 == k)
  · rw [if_pos h]; exact lookup_map_replace l k v h
  · rw [if_neg h]; exact lookup_append_new l k v (by rwa [Bool.not_eq_true] at h)

/-- Deleting the head key of a store whose keys are distinct removes
exactly the head entry. -/
theorem assocDelete_cons_self {α : Type} (p : String × α) (t : List (String × α))
    (h : ∀ q ∈ t, q.1 ≠ p.1) :
    assocDelete (p :: t) p.1 = t := by
  simp only [assocDelete, List.filter_cons, beq_self_eq_true, Bool.not_true,
    Bool.false_eq_true, if_false]
  apply List.filter_eq_self.mpr
  intro q hq
  simp [h q hq]

/-! ## C3: conversation append keeps the most recent twenty turns -/

/-- The session value after one append: the previous turns plus the new
one, trimmed from the front to at most twenty. -/
theorem getCC_addToConversation (store : Store) (sid role content : String) :
    getConversationContext (addToConversation store sid role content) sid
      = ((getConversationContext store sid ++ [(role, content)]).drop
          ((getConversationContext store sid ++ [(role, content)]).length - 20)) := by
  unfold addToConversation getConversationContext
  rw [lookupRec_assocSet_self]
  split
  · rfl
  · rename_i hle
    rw [Nat.sub_eq_zero_of_le (by omega), List.drop_zero]
    rfl

/-- Folding appends over a message list extends the turn list and keeps
its last twenty entries. -/
theorem fold_addToConversation (sid : String) :
    ∀ (msgs : List Turn) (store : Store),
      (getConversationContext store sid).length ≤ 20 →
      getConversationContext
          (msgs.foldl (fun st m => addToConversation st sid m.1 m.2) store) sid
        = (getConversationContext store sid ++ msgs).drop
            ((getConversationContext store sid ++ msgs).length - 20) := by
  intro msgs
  induction msgs with
  | nil =>
    intro store h
    simp only [List.foldl_nil, List.append_nil]
    rw [Nat.sub_eq_zero_of_le h, List.drop_zero]
  | cons m ms ih =>
    intro store h
    have hstep := getCC_addToConversation store sid m.1 m.2
    have hlen : (getConversationContext (addToConversation store sid m.1 m.2) sid).length ≤ 20 := by
      rw [hstep, List.length_drop]
      omega
    have := ih (addToConversation store sid m.1 m.2) hlen
    rw [List.foldl_cons, this, hstep]
    have hk : (getConversationContext store sid ++ [(m.1, m.2)]).length - 20
        ≤ (getConversationContext store sid ++ [(m.1, m.2)]).length := Nat.sub_le _ _
    have hms : getConversationContext store sid ++ m :: ms
        = (getConversationContext store sid ++ [(m.1, m.2)]) ++ ms := by
      simp
    rw [hms, ← List.drop_append_of_le_length hk, List.drop_drop]
    congr 1
    simp only [List.length_drop, List.length_append, List.length_cons]
    omega

/-- C3: after any sequence of append calls to one session starting from
an absent or empty session, the turn list is exactly the most recently
appended turns in arrival order, at most twenty of them, with the
oldest evicted first. -/
theorem conversation_cap_after_appends (store : Store) (sid : String) (msgs : List Turn)
    (h : getConversationContext store sid = []) :
    getConversationContext
        (msgs.foldl (fun st m => addToConversation st sid m.1 m.2) store) sid
      = msgs.drop (msgs.length - 20) ∧
    (getConversationContext
        (msgs.foldl (fun st m => addToConversation st sid m.1 m.2) store) sid).length ≤ 20 := by
  have := fold_addToConversation sid msgs store (by rw [h]; simp)
  rw [h, List.nil_append] at this
  refine ⟨this, ?_⟩
  rw [this, List.length_drop]
  omega

/-- Witness for C3: twenty-five appends to a fresh session leave the
last twenty turns. -/
theorem conversation_cap_after_appends_witness :
    getConversationContext
        (msgs25.foldl (fun st m => addToConversation st sid25 m.1 m.2) ([] : Store)) sid25
      = msgs25.drop (msgs25.length - 20) ∧
    (getConversationContext
        (msgs25.foldl (fun st m => addToConversation st sid25 m.1 m.2) ([] : Store)) sid25).length ≤ 20 :=
  conversation_cap_after_appends [] sid25 msgs25 rfl

/-! ## C7: the cleanup sweep deletes the oldest half -/

/-- Folding deletions over the first `m` keys of a distinct-key store
drops its first `m` entries. -/
theorem fold_delete_take (store : Store) (hnd : (store.map Prod.fst).Nodup) :
    ∀ m, (((store.map Prod.fst).take m).foldl (fun s k => assocDelete s k) store)
      = store.drop m := by
  induction store with
  | nil => intro m; simp
  | cons p t ih =>
    intro m
    cases m with
    | zero => simp
    | succ n =>
      simp only [List.map_cons, List.take_succ_cons, List.foldl_cons]
      rw [List.map_cons, List.nodup_cons] at hnd
      rw [assocDelete_cons_self p t ?hfresh]
      case hfresh =>
        intro q hq hqp
        exact hnd.1 (hqp ▸ List.mem_map_of_mem Prod.fst hq)
      exact ih hnd.2 n

/-- C7: when the sweep observes more than one hundred stored sessions,
it deletes exactly the first half of the entries in insertion order and
leaves the remaining entries unchanged. -/
theorem cleanup_sweep_drops_oldest_half (store : Store)
    (hnd : (store.map Prod.fst).Nodup) (h : store.length > 100) :
    cleanupSweep store = store.drop (store.length / 2) := by
  unfold cleanupSweep
  rw [if_pos h, fold_delete_take store hnd, List.length_map]

/-- Witness for C7: sweeping a one-hundred-one entry store drops its
first fifty entries. -/
theorem cleanup_sweep_drops_oldest_half_witness :
    cleanupSweep store101 = store101.drop (store101.length / 2) :=
  cleanup_sweep_drops_oldest_half store101 (by decide) (by decide)

/-! ## C1: upstream failure handling in analyzeDataWithAI -/

/-- C1 amended: every failing collaborator call (rejected fetch, a
non-ok response status, or an unreadable success body) reaches the
catch branch, which still returns a normal response rather than
throwing, but with success false, the fixed apology analysis text, no
chart data, the Error title, and the store untouched. -/
theorem upstream_failure_degraded (clean : String → String) (extract : String → ChartExtract)
    (freshId : String) (store : Store) (sessionId : Option String) (question : String)
    (outcome : FetchOutcome)
    (h : (∃ m, outcome = .rejected m) ∨
         (∃ st bd ct, outcome = .response false st bd ct) ∨
         (∃ st bd, outcome = .response true st bd none)) :
    (analyzeDataWithAI clean extract freshId store sessionId question outcome).1.success = false ∧
    (analyzeDataWithAI clean extract freshId store sessionId question outcome).1.analysis = apologyMsg ∧
    (analyzeDataWithAI clean extract freshId store sessionId question outcome).1.chartData = none ∧
    (analyzeDataWithAI clean extract freshId store sessionId question outcome).1.chartTitle = "Error" ∧
    (analyzeDataWithAI clean extract freshId store sessionId question outcome).2 = store := by
  rcases h with ⟨m, rfl⟩ | ⟨st, bd, ct, rfl⟩ | ⟨st, bd, rfl⟩ <;>
    exact ⟨rfl, rfl, rfl, rfl, rfl⟩

/-- Witness for C1: a concrete timed-out fetch produces the degraded
record and leaves the store untouched. -/
theorem upstream_failure_degraded_witness :
    (analyzeDataWithAI id (fun s => ⟨s, none, none, none⟩) "fresh" [] (some "sess") "q"
        (.rejected "timeout")).1.success = false ∧
    (analyzeDataWithAI id (fun s => ⟨s, none, none, none⟩) "fresh" [] (some "sess") "q"
        (.rejected "timeout")).1.analysis = apologyMsg ∧
    (analyzeDataWithAI id (fun s => ⟨s, none, none, none⟩) "fresh" [] (some "sess") "q"
        (.rejected "timeout")).1.chartData = none ∧
    (analyzeDataWithAI id (fun s => ⟨s, none, none, none⟩) "fresh" [] (some "sess") "q"
        (.rejected "timeout")).1.chartTitle = "Error" ∧
    (analyzeDataWithAI id (fun s => ⟨s, none, none, none⟩) "fresh" [] (some "sess") "q"
        (.rejected "timeout")).2 = [] :=
  upstream_failure_degraded id (fun s => ⟨s, none, none, none⟩) "fresh" [] (some "sess") "q"
    (.rejected "timeout") (Or.inl ⟨"timeout", rfl⟩)

/-- Counterexample to C1 as stated: on a concrete upstream timeout the
returned response reports success false with the fixed apology text and
a null chart, not a success flag with a local-statistics analysis and
the locally computed chart. -/
theorem upstream_failure_reports_failure_cex :
    (analyzeDataWithAI id (fun s => ⟨s, none, none, none⟩) "fresh" [] (some "sess") "q2"
        (.rejected "network timeout")).1.success = false ∧
    (analyzeDataWithAI id (fun s => ⟨s, none, none, none⟩) "fresh" [] (some "sess") "q2"
        (.rejected "network timeout")).1.analysis
      = "Sorry, AI analysis failed. Please try again or paste smaller data." ∧
    (analyzeDataWithAI id (fun s => ⟨s, none, none, none⟩) "fresh" [] (some "sess") "q2"
        (.rejected "network timeout")).1.chartData = none :=
  ⟨rfl, rfl, rfl⟩

/-! ## C5: chart type selection order -/

/-- C5 amended: whenever labels are present with at most six entries,
the selector returns bar, because the first rule evaluated is the
at-most-seven-labels bar rule; the pie rule is only reachable when
labels are absent or number more than seven. -/
theorem small_label_set_selects_bar (input : ChartDataInput) (ls : List String)
    (hl : input.labels = some ls) (hn : ls.length ≤ 6) :
    determineChartType input = "bar" := by
  obtain ⟨labels, datasets⟩ := input
  simp only at hl
  subst hl
  have h7 : ls.length ≤ 7 := by omega
  cases datasets with
  | nil => rfl
  | cons d rest =>
    obtain ⟨dl, dd⟩ := d
    cases dd with
    | none => rfl
    | some ddata => simp [determineChartType, h7]

/-- Witness for C5: the selector returns bar on the concrete three-label
input. -/
theorem small_label_set_selects_bar_witness :
    determineChartType pieCexInput = "bar" :=
  small_label_set_selects_bar pieCexInput ["A", "B", "C"] rfl (by decide)

/-- Counterexample to C5 as stated: a concrete input with three distinct
labels and values summing to one hundred satisfies the percentage test,
yet the selector returns bar, not pie, because the bar rule for at most
seven labels is evaluated first. -/
theorem pie_rule_not_first_cex :
    determineChartType pieCexInput = "bar" ∧
    (["A", "B", "C"] : List String).length ≤ 6 ∧
    isPercentageData [50, 30, 20] = true ∧
    "bar" ≠ "pie" := by
  refine ⟨rfl, by decide, by norm_num [isPercentageData, List.foldl], by decide⟩

/-! ## C9: JSON normalization cases -/

/-- C9 amended: a top-level array becomes the dataset, a top-level
object or null is wrapped as a one-record dataset (null because the JS
typeof of null is object), invalid JSON is a parse error, and the
remaining top-level values (strings, numbers, booleans) are rejected. -/
theorem normalizeJSON_characterization :
    normalizeJSON none = .error "JSON parsing error" ∧
    (∀ xs, normalizeJSON (some (.arr xs)) = .ok xs) ∧
    (∀ fields, normalizeJSON (some (.obj fields)) = .ok [.obj fields]) ∧
    normalizeJSON (some .null) = .ok [.null] ∧
    (∀ s, normalizeJSON (some (.str s)) = .error "JSON must be an array or object") ∧
    (∀ q, normalizeJSON (some (.num q)) = .error "JSON must be an array or object") ∧
    (∀ b, normalizeJSON (some (.bool b)) = .error "JSON must be an array or object") :=
  ⟨rfl, fun _ => rfl, fun _ => rfl, rfl, fun _ => rfl, fun _ => rfl, fun _ => rfl⟩

/-- Counterexample to C9 as stated: the concrete top-level value null is
not rejected; it is wrapped as a one-record dataset. -/
theorem normalizeJSON_null_wrapped_cex :
    normalizeJSON (some .null) = .ok [.null] ∧
    normalizeJSON (some .null) ≠ .error "JSON must be an array or object" :=
  ⟨rfl, by simp [normalizeJSON]⟩

/-! ## C4 and C6: column profiling -/

/-- Lookup skips a head entry with a different key. -/
theorem lookupRec_cons_ne {α : Type} (a : String) (v : α) (t : List (String × α)) (c : String)
    (h : (a == c) = false) :
    lookupRec c ((a, v) :: t) = lookupRec c t := by
  simp [lookupRec, List.find?, h]

/-- Lookup finds a head entry with the matching key. -/
theorem lookupRec_cons_self {α : Type} (a : String) (v : α) (t : List (String × α)) :
    lookupRec a ((a, v) :: t) = some v := by
  simp [lookupRec, List.find?]

/-- Looking a key up in a per-key tabulation returns the tabulated value
exactly for listed keys. -/
theorem lookup_map_self {α : Type} (cols : List String) (f : String → α) (c : String) :
    lookupRec c (cols.map (fun x => (x, f x))) = if c ∈ cols then some (f c) else none := by
  induction cols with
  | nil => simp [lookupRec]
  | cons a t ih =>
    by_cases h : a = c
    · subst h
      simp [lookupRec_cons_self]
    · rw [List.map_cons, lookupRec_cons_ne a (f a) _ c (by simpa using h), ih]
      simp [Ne.symm h]

/-- Each column read is either present or missing: the two counts
partition the rows. -/
theorem present_missing_partition (l : List (Option Value)) :
    (l.filterMap keepPresent).length + (l.filter isMissingRead).length = l.length := by
  induction l with
  | nil => rfl
  | cons ov t ih =>
    cases ov with
    | none =>
      simp [List.filterMap_cons, List.filter_cons, keepPresent, isMissingRead]
      omega
    | some v =>
      by_cases h1 : v = VNull
      · subst h1
        simp [List.filterMap_cons, List.filter_cons, keepPresent, isMissingRead]
        omega
      · by_cases h2 : v = VStr ""
        · subst h2
          simp [List.filterMap_cons, List.filter_cons, keepPresent, isMissingRead]
          omega
        · simp [List.filterMap_cons, List.filter_cons, keepPresent, isMissingRead, h1, h2]
          omega

/-- C6 amended: for a non-empty dataset the profiled column set is the
key set of the first record, not the union over all records: a field
appearing only in a later record gets no profile entry.  For profiled
columns, a key absent from a record (like a null or empty value) counts
on the missing side of the per-column partition. -/
theorem columns_from_first_record (dp : Value → Option Int) (r : Record) (rest : List Record) :
    (columnTypesOf dp (r :: rest)).map Prod.fst = r.map Prod.fst ∧
    (∀ col, col ∉ r.map Prod.fst → lookupRec col (columnTypesOf dp (r :: rest)) = none) ∧
    (∀ col, (presentValues (r :: rest) col).length + missingCountCol (r :: rest) col
        = (r :: rest).length) := by
  refine ⟨?_, ?_, ?_⟩
  · simp [columnTypesOf, columnsOf]
  · intro col hcol
    rw [columnTypesOf, lookup_map_self]
    simp only [columnsOf]
    rw [if_neg hcol]
  · intro col
    have := present_missing_partition ((r :: rest).map (fun row => lookupRec col row))
    simpa [presentValues, missingCountCol] using this

/-- Witness for C6 amended: on the concrete dataset the profiled
columns are exactly the first-record keys, the late field `b` has no
profile entry, and present plus missing counts for `a` cover both
rows. -/
theorem columns_from_first_record_witness :
    (columnTypesOf noDate (recA :: restA)).map Prod.fst = recA.map Prod.fst ∧
    lookupRec "b" (columnTypesOf noDate (recA :: restA)) = none ∧
    (presentValues (recA :: restA) "a").length + missingCountCol (recA :: restA) "a"
      = (recA :: restA).length :=
  ⟨(columns_from_first_record noDate recA restA).1,
   (columns_from_first_record noDate recA restA).2.1 "b" (by decide),
   (columns_from_first_record noDate recA restA).2.2 "a"⟩

/-- Counterexample to C6 as stated: the field `b` is present in the
second record of the concrete dataset but receives no profile entry,
because the column set is read from the first record only. -/
theorem union_key_not_profiled_cex :
    columnTypesOf noDate data6 = [("a", "numeric")] ∧
    lookupRec "b" (data6.getD 1 []) = some (VNum 3) ∧
    lookupRec "b" (columnTypesOf noDate data6) = none := by
  decide

/-- A value is a JS number exactly when it is a `VNum`. -/
theorem isNumberVal_iff (v : Value) : isNumberVal v = true ↔ ∃ q, v = VNum q := by
  cases v <;> simp [isNumberVal]

/-- C4 amended: a profiled column is typed numeric exactly when it has
at least one present value and either its first present value is a JS
number or every present value passes the numeric-string test.  In
particular a non-numeric value after a leading number value does not
change the inferred type. -/
theorem column_numeric_iff (dp : Value → Option Int) (data : List Record) (col : String)
    (h : col ∈ columnsOf data) :
    lookupRec col (columnTypesOf dp data) = some "numeric" ↔
      (presentValues data col ≠ [] ∧
        ((∃ q, (presentValues data col).head? = some (VNum q)) ∨
         (∀ v ∈ presentValues data col, jsIsNumeric v = true))) := by
  rw [columnTypesOf, lookup_map_self, if_pos h]
  unfold columnTypeOf
  cases hpv : presentValues data col with
  | nil => simp
  | cons v t =>
    dsimp only
    constructor
    · intro heq
      refine ⟨by simp, ?_⟩
      by_cases hv : isNumberVal v = true
      · rcases (isNumberVal_iff v).mp hv with ⟨q, rfl⟩
        exact Or.inl ⟨q, by simp⟩
      · by_cases hall : (v :: t).all jsIsNumeric = true
        · exact Or.inr (by simpa [List.all_eq_true] using hall)
        · exfalso
          rw [Bool.not_eq_true] at hv hall
          rw [hv, hall] at heq
          simp only [Bool.or_self, Bool.false_eq_true, if_false] at heq
          split at heq <;> exact absurd heq (by decide)
    · rintro ⟨-, hor⟩
      have hcond : (isNumberVal v || (v :: t).all jsIsNumeric) = true := by
        rcases hor with ⟨q, hq⟩ | hforall
        · simp only [List.head?_cons, Option.some_inj] at hq
          subst hq
          simp [isNumberVal]
        · have hall : (v :: t).all jsIsNumeric = true := by
            simpa [List.all_eq_true] using hforall
          simp [hall]
      rw [hcond]
      simp

/-- Witness for C4 amended: the all-number column is typed numeric, by
the characterization applied at the concrete dataset. -/
theorem column_numeric_iff_witness :
    lookupRec "x" (columnTypesOf noDate data4b) = some "numeric" :=
  (column_numeric_iff noDate data4b "x" (by decide)).mpr
    ⟨by decide, Or.inl ⟨5, by decide⟩⟩

/-- Counterexample to C4 as stated: replacing the second value of the
all-number column by the non-numeric string abc leaves the inferred
type numeric, because the first present value is a number; the claim
demands a change to text or temporal. -/
theorem nonnumeric_value_keeps_numeric_cex :
    columnTypesOf noDate data4b = [("x", "numeric")] ∧
    columnTypesOf noDate data4 = [("x", "numeric")] ∧
    VStr "abc" ∈ presentValues data4 "x" ∧
    jsIsNumeric (VStr "abc") = false := by
  decide

/-! ## C2: chart label and value counts -/

/-- C2 amended: when the profile has no date-typed column, the ordinal
labels are generated from the value count, so the label and value
counts agree; when a date column exists, the label count is the bounded
row count, which exceeds the value count whenever a chart-column value
in the first fifty rows fails to parse. -/
theorem chart_label_counts (dp : Value → Option Int) (isoDay : Int → String)
    (data : List Record) (columnTypes : List (String × String)) (cfg : ChartConfig)
    (h : prepareChartConfigModel dp isoDay data columnTypes = some cfg) :
    (columnTypes.filter (fun p => p.2 == "date") = [] →
      cfg.labels.length = cfg.dataValues.length) ∧
    (columnTypes.filter (fun p => p.2 == "date") ≠ [] →
      cfg.labels.length = (data.take 50).length) := by
  unfold prepareChartConfigModel at h
  by_cases hde : data.isEmpty
  · simp [hde] at h
  · simp only [hde, Bool.false_eq_true, if_false] at h
    rcases hnc : (columnTypes.filter (fun p => p.2 == "numeric")).map Prod.fst
      with _ | ⟨chartColumn, restC⟩
    · rw [hnc] at h
      exact absurd h (by simp)
    · rw [hnc] at h
      dsimp only at h
      split at h
      · exact absurd h (by simp)
      · rcases hdc : (columnTypes.filter (fun p => p.2 == "date")).map Prod.fst
          with _ | ⟨dateColumn, restD⟩
        · rw [hdc] at h
          rw [Option.some_inj] at h
          subst h
          refine ⟨fun _ => ?_, fun hne => ?_⟩
          · simp [List.length_map, List.length_range]
          · exact absurd (by simpa using hdc) hne
        · rw [hdc] at h
          rw [Option.some_inj] at h
          subst h
          refine ⟨fun hfe => ?_, fun _ => ?_⟩
          · rw [hfe] at hdc
            exact absurd hdc (by simp)
          · simp [List.length_map]

/-- Witness for C2 amended: on the concrete no-date dataset the label
count equals the value count. -/
theorem chart_label_counts_witness :
    cfgW.labels.length = cfgW.dataValues.length :=
  (chart_label_counts noDate (fun _ => "") dataW (columnTypesOf noDate dataW) cfgW
    (by rfl)).1 (by rfl)

/-- Counterexample to C2 as stated: on the concrete dataset the
produced chart has two labels but a single series value, because the
date labels keep every bounded row while the series drops the value
that fails to parse. -/
theorem chart_label_mismatch_cex :
    ((prepareChartConfigModel dpEx isoEx dataEx (columnTypesOf dpEx dataEx)).map
        (fun c => (c.labels.length, c.dataValues.length))) = some (2, 1) ∧
    (2 : Nat) ≠ 1 :=
  ⟨rfl, by decide⟩

/-! ## C8: delimiter selection is the first argmax -/

/-- A JS split always produces at least one piece. -/
theorem splitOnCharList_ne_nil (c : Char) (l : List Char) : splitOnCharList c l ≠ [] := by
  cases l with
  | nil => simp [splitOnCharList]
  | cons x xs =>
    simp only [splitOnCharList]
    rcases h : splitOnCharList c xs with _ | ⟨hd, tl⟩
    · simp
    · dsimp only
      split <;> simp

/-- Every candidate yields at least one field on the first line. -/
theorem fieldCount_pos (line : String) (d : Char) : 0 < fieldCount line d := by
  unfold fieldCount jsSplit
  rw [List.length_map]
  exact List.length_pos.mpr (splitOnCharList_ne_nil d line.data)

/-- C8: the detected delimiter is exactly the specification choice: the
candidate with the most fields on the first line, earlier candidates
winning ties. -/
theorem detectDelimiter_eq_spec (text : String) :
    detectDelimiter text = specDelimiterChoice text := by
  have ha : 0 < fieldCount (firstRawLine text) ',' := fieldCount_pos _ _
  unfold detectDelimiter specDelimiterChoice delimiterCandidates
  dsimp only
  simp only [List.foldl_cons, List.foldl_nil]
  split_ifs <;> first | rfl | omega

/-! ## C10: CSV record shape -/

/-- Setting a fresh key is an append. -/
theorem assocSet_fresh {α : Type} (l : List (String × α)) (k : String) (v : α)
    (h : l.any (fun p => p.1 == k) = false) :
    assocSet l k v = l ++ [(k, v)] := by
  unfold assocSet
  rw [if_neg]
  simp [h]

/-- On distinct headers none of which is already a key of the
accumulator, the record builder appends one pair per header. -/
theorem buildRecordAux_eq_rowZip (dp : Value → Option Int) (values : List String) :
    ∀ (hs : List String) (i : Nat) (obj : Record),
      hs.Nodup → (∀ k ∈ hs, obj.any (fun p => p.1 == k) = false) →
      buildRecordAux dp values hs i obj = obj ++ rowZip dp values hs i := by
  intro hs
  induction hs with
  | nil => intro i obj _ _; simp [buildRecordAux, rowZip]
  | cons h t ih =>
    intro i obj hnd hfresh
    rw [List.nodup_cons] at hnd
    unfold buildRecordAux
    rw [assocSet_fresh obj h _ (hfresh h (by simp))]
    rw [ih (i + 1) _ hnd.2 ?hfresh2]
    · simp [rowZip]
    case hfresh2 =>
      intro k hk
      rw [List.any_append]
      simp only [Bool.or_eq_false_iff]
      refine ⟨hfresh k (by simp [hk]), ?_⟩
      simp only [List.any_cons, List.any_nil, Bool.or_false]
      exact beq_eq_false_iff_ne.mpr (fun he => hnd.1 (he ▸ hk))

/-- On distinct headers the built record is the explicit pairing. -/
theorem buildRecord_eq_rowZip (dp : Value → Option Int) (headers values : List String)
    (hnd : headers.Nodup) :
    buildRecord dp headers values = rowZip dp values headers 0 := by
  unfold buildRecord
  rw [buildRecordAux_eq_rowZip dp values headers 0 [] hnd (by simp)]
  simp

/-- The keys of the explicit pairing are the headers. -/
theorem rowZip_keys (dp : Value → Option Int) (values : List String) :
    ∀ (hs : List String) (i : Nat), (rowZip dp values hs i).map Prod.fst = hs := by
  intro hs
  induction hs with
  | nil => intro i; simp [rowZip]
  | cons h t ih => intro i; simp [rowZip, ih]

/-- Reading inside the taken prefix is reading the original list. -/
theorem getD_take {α : Type} :
    ∀ (l : List α) (n i : Nat) (d : α), i < n → (l.take n).getD i d = l.getD i d := by
  intro l
  induction l with
  | nil => intro n i d _; simp
  | cons x xs ih =>
    intro n i d hin
    cases n with
    | zero => omega
    | succ n =>
      cases i with
      | zero => simp
      | succ i =>
        simp only [List.take_succ_cons, List.getD_cons_succ]
        exact ih n i d (by omega)

/-- The explicit pairing only reads cells below the header count, so
cells beyond that bound are ignored. -/
theorem rowZip_vals_take (dp : Value → Option Int) (values : List String) :
    ∀ (hs : List String) (i n : Nat), i + hs.length ≤ n →
      rowZip dp values hs i = rowZip dp (values.take n) hs i := by
  intro hs
  induction hs with
  | nil => intro i n _; simp [rowZip]
  | cons h t ih =>
    intro i n hlen
    simp only [List.length_cons] at hlen
    unfold rowZip
    rw [getD_take values n i "" (by omega), ih (i + 1) n (by omega)]

/-- Looking up the j-th distinct header in the explicit pairing reads
cell i + j. -/
theorem rowZip_lookup (dp : Value → Option Int) (values : List String) :
    ∀ (hs : List String) (j : Nat) (hj : j < hs.length) (i : Nat), hs.Nodup →
      lookupRec (hs.get ⟨j, hj⟩) (rowZip dp values hs i)
        = some (convertCell dp (values.getD (i + j) "")) := by
  intro hs
  induction hs with
  | nil => intro j hj; simp at hj
  | cons h t ih =>
    intro j hj i hnd
    rw [List.nodup_cons] at hnd
    cases j with
    | zero =>
      simp only [List.get, rowZip]
      rw [lookupRec_cons_self]
      simp
    | succ j =>
      simp only [List.get, rowZip]
      have hj2 : j < t.length := by
        simp only [List.length_cons] at hj
        omega
      rw [lookupRec_cons_ne _ _ _ _ ?hne, ih j hj2 (i + 1) hnd.2,
        show i + 1 + j = i + (j + 1) by omega]
      case hne =>
        refine beq_eq_false_iff_ne.mpr (fun he => hnd.1 ?_)
        rw [he]
        exact List.get_mem t j hj2

/-- An empty cell stays the empty string through the conversion chain
when the host date parser rejects the empty string, as JS Date.parse
does. -/
theorem convertCell_empty (dp : Value → Option Int) (hdp : dp (VStr "") = none) :
    convertCell dp "" = VStr "" := by
  unfold convertCell
  rw [if_neg (by decide)]
  dsimp only
  rw [if_neg (by decide), hdp]

/-- C10: for a parse with pairwise-distinct trimmed header fields,
every produced record has exactly the header fields as its keys in
header order; the record built from a cell row ignores cells beyond the
header count; and a header whose cell index is beyond the row length
reads as the empty string. -/
theorem parseCSV_record_shape (dp : Value → Option Int) (text : String)
    (rows : List Record) (rec : Record) (cells : List String) (j : Nat)
    (hrows : parseCSVModel dp text = .ok rows) (hrec : rec ∈ rows)
    (hnd : (headersOf text).Nodup) (hdp : dp (VStr "") = none)
    (hj : j < (headersOf text).length) (hshort : cells.length ≤ j) :
    rec.map Prod.fst = headersOf text ∧
    buildRecord dp (headersOf text) cells
      = buildRecord dp (headersOf text) (cells.take (headersOf text).length) ∧
    lookupRec ((headersOf text).get ⟨j, hj⟩) (buildRecord dp (headersOf text) cells)
      = some (VStr "") := by
  refine ⟨?_, ?_, ?_⟩
  · unfold parseCSVModel at hrows
    split at hrows
    · exact absurd hrows (by simp)
    · rw [Except.ok.injEq] at hrows
      subst hrows
      rcases List.mem_map.mp hrec with ⟨line, _, rfl⟩
      rw [buildRecord_eq_rowZip dp _ _ hnd, rowZip_keys]
  · rw [buildRecord_eq_rowZip dp _ _ hnd, buildRecord_eq_rowZip dp _ _ hnd]
    exact rowZip_vals_take dp cells (headersOf text) 0 (headersOf text).length (by omega)
  · rw [buildRecord_eq_rowZip dp _ _ hnd,
      rowZip_lookup dp cells (headersOf text) j hj 0 hnd]
    rw [List.getD_eq_default _ _ (by omega : cells.length ≤ 0 + j)]
    rw [convertCell_empty dp hdp]

/-- Witness for C10: on the concrete text the short row record carries
all three header keys, the long row ignores its extra cell, and the
missing trailing cell of the short row reads as the empty string. -/
theorem parseCSV_record_shape_witness :
    ([("a", VStr "x"), ("b", VStr "y"), ("c", VStr "")] : Record).map Prod.fst
        = headersOf csvTextW ∧
    buildRecord noDate (headersOf csvTextW) ["x", "y"]
        = buildRecord noDate (headersOf csvTextW)
            (["x", "y"].take (headersOf csvTextW).length) ∧
    lookupRec ((headersOf csvTextW).get ⟨2, by decide⟩)
        (buildRecord noDate (headersOf csvTextW) ["x", "y"]) = some (VStr "") :=
  parseCSV_record_shape noDate csvTextW
    [[("a", VStr "x"), ("b", VStr "y"), ("c", VStr "")],
     [("a", VStr "u"), ("b", VStr "v"), ("c", VStr "w")]]
    [("a", VStr "x"), ("b", VStr "y"), ("c", VStr "")] ["x", "y"] 2
    rfl (by decide) (by decide) rfl (by decide) (by decide)

end DataExaminer
